import Mathlib

/-!
Verification of the RPi global-shutter camera driver's binary codec:
the RAW10 unpacker (src/Util.cpp, util::unpackRaw10To16) and the
minimal TIFF/DNG container writer (src/DngWriter.cpp, DngWriter::write).

The C++ code is shallowly embedded: machine integers become Nat with
explicit masking where overflow matters, the mapped frame memory becomes
a total function Nat → Nat read modulo 256, and the output file stream
becomes an explicit byte-list state with a write position (seek/tell).
-/

namespace GsCam

/-- One plane of a libcamera FrameBuffer: the fields the unpacker reads
(FrameBuffer::Plane::offset and ::length). -/
structure Plane where
  offset : Nat
  length : Nat
deriving DecidableEq

/-- The parts of a non-null libcamera FrameBuffer that unpackRaw10To16
uses: the plane list and the mapped base pointer stashed in cookie().
A null cookie (no mapping) is modelled as none. Bytes are read through
the function modulo 256 (uint8_t loads). -/
structure FrameBuffer where
  planes : List Plane
  mem : Option (Nat → Nat)

/-- The 4-pixel decode of one 5-byte RAW10 group, exactly the four
expressions of Util.cpp lines 106-109:
p0 = b0 | ((b4 & 3) << 8), p1 = b1 | (((b4 >> 2) & 3) << 8),
p2 = b2 | (((b4 >> 4) & 3) << 8), p3 = b3 | (((b4 >> 6) & 3) << 8). -/
def decodeGroup (b0 b1 b2 b3 b4 : Nat) : List Nat :=
  [ b0 ||| ((b4 &&& 3) <<< 8),
    b1 ||| (((b4 >>> 2) &&& 3) <<< 8),
    b2 ||| (((b4 >>> 4) &&& 3) <<< 8),
    b3 ||| (((b4 >>> 6) &&& 3) <<< 8) ]

/-- The inner `while (x < width)` loop of unpackRaw10To16 for one row.
`pos` is the running byte position of `line` relative to the mapped base
plus plane offset, `rem` is `width - x`.  Each iteration reads the five
bytes line[0..4], decodes four pixels and stores only those with
`x + k < width`, i.e. the first `rem` of the four; for a final partial
group (`rem` in 1..3) the loop still reads all five bytes, keeps the
first `rem` pixels and exits. -/
def unpackRowAux (rd : Nat → Nat) (pos rem : Nat) : List Nat :=
  match rem with
  | 0 => []
  | n + 4 =>
    (decodeGroup (rd pos) (rd (pos + 1)) (rd (pos + 2)) (rd (pos + 3))
        (rd (pos + 4))).take (n + 4)
      ++ unpackRowAux rd (pos + 5) n
  | r =>
    (decodeGroup (rd pos) (rd (pos + 1)) (rd (pos + 2)) (rd (pos + 3))
        (rd (pos + 4))).take r

/-- The outer `for (y = 0; y < height; ++y)` loop: row y starts at byte
`y * stride` and the decoded rows are appended in order into dst. -/
def unpackAll (rd : Nat → Nat) (stride width : Nat) : Nat → List Nat
  | 0 => []
  | h + 1 => unpackAll rd stride width h ++ unpackRowAux rd (h * stride) width

/-- util::unpackRaw10To16 (Util.cpp lines 62-126) for a non-null fb.
Checks in source order: dst.size() == width*height, planes().size() == 1,
cookie() base non-null, plane length >= stride*height with
stride = (width*10+7)/8; then decodes.  `none` models `return false`,
`some dst` models `return true` with the filled dst vector. -/
def unpackRaw10To16 (fb : FrameBuffer) (width height dstSize : Nat) :
    Option (List Nat) :=
  if dstSize ≠ width * height then none
  else if fb.planes.length ≠ 1 then none
  else
    match fb.planes with
    | [p] =>
      match fb.mem with
      | none => none
      | some mem =>
        let rd : Nat → Nat := fun i => mem (p.offset + i) % 256
        let packedStride := (width * 10 + 7) / 8
        if p.length < packedStride * height then none
        else some (unpackAll rd packedStride width height)
    | _ => none

/-! ### Basic lemmas about the unpacker -/

theorem decodeGroup_length (b0 b1 b2 b3 b4 : Nat) :
    (decodeGroup b0 b1 b2 b3 b4).length = 4 := rfl

theorem unpackRowAux_four (rd : Nat → Nat) (pos n : Nat) :
    unpackRowAux rd pos (n + 4) =
      (decodeGroup (rd pos) (rd (pos + 1)) (rd (pos + 2)) (rd (pos + 3))
          (rd (pos + 4))).take (n + 4)
        ++ unpackRowAux rd (pos + 5) n := rfl

theorem unpackRowAux_small (rd : Nat → Nat) (pos r : Nat)
    (hr : r = 1 ∨ r = 2 ∨ r = 3) :
    unpackRowAux rd pos r =
      (decodeGroup (rd pos) (rd (pos + 1)) (rd (pos + 2)) (rd (pos + 3))
          (rd (pos + 4))).take r := by
  rcases hr with h | h | h <;> subst h <;> rfl

theorem unpackRowAux_length (rd : Nat → Nat) (pos rem : Nat) :
    (unpackRowAux rd pos rem).length = rem := by
  induction rem using Nat.strong_induction_on generalizing pos with
  | _ rem ih =>
    match rem with
    | 0 => rfl
    | 1 => rfl
    | 2 => rfl
    | 3 => rfl
    | n + 4 =>
      rw [unpackRowAux_four]
      simp [ih n (by omega), decodeGroup]

theorem unpackAll_length (rd : Nat → Nat) (stride width h : Nat) :
    (unpackAll rd stride width h).length = h * width := by
  induction h with
  | zero => simp [unpackAll]
  | succ n ih =>
    simp [unpackAll, ih, unpackRowAux_length]
    ring

/-- Indexing a decoded row: the sample at position `4*g + j` comes from
the five bytes of group `g`, located at line offset `5*g`. -/
theorem unpackRowAux_getElem (rd : Nat → Nat) (g : Nat) :
    ∀ pos rem j, j < 4 → 4 * g + j < rem →
      (unpackRowAux rd pos rem)[4 * g + j]? =
        (decodeGroup (rd (pos + 5 * g)) (rd (pos + 5 * g + 1))
          (rd (pos + 5 * g + 2)) (rd (pos + 5 * g + 3))
          (rd (pos + 5 * g + 4)))[j]? := by
  induction g with
  | zero =>
    intro pos rem j hj hlt
    simp only [Nat.mul_zero, Nat.zero_add, Nat.add_zero] at hlt ⊢
    match rem, hlt with
    | 1, hlt | 2, hlt | 3, hlt =>
      rw [unpackRowAux_small rd pos _ (by omega)]
      rw [List.getElem?_take]
      simp [hlt]
    | n + 4, hlt =>
      rw [unpackRowAux_four]
      rw [List.getElem?_append_left
        (by simp only [List.length_take, decodeGroup_length]; omega)]
      rw [List.getElem?_take]
      simp only [if_pos hlt]
  | succ g ih =>
    intro pos rem j hj hlt
    match rem, hlt with
    | 1, hlt | 2, hlt | 3, hlt => omega
    | n + 4, hlt =>
      rw [unpackRowAux_four]
      have htk : ((decodeGroup (rd pos) (rd (pos + 1)) (rd (pos + 2))
          (rd (pos + 3)) (rd (pos + 4))).take (n + 4)).length = 4 := by
        simp only [List.length_take, decodeGroup_length]; omega
      rw [List.getElem?_append_right (by omega)]
      rw [htk]
      have hidx : 4 * (g + 1) + j - 4 = 4 * g + j := by omega
      rw [hidx]
      rw [ih (pos + 5) n j hj (by omega)]
      have h1 : pos + 5 + 5 * g = pos + 5 * (g + 1) := by omega
      rw [h1]

/-- Indexing the full output: sample `y*width + i` of the output is
sample `i` of row `y`, which starts at byte `y*stride`. -/
theorem unpackAll_getElem (rd : Nat → Nat) (stride width : Nat) :
    ∀ h y i, y < h → i < width →
      (unpackAll rd stride width h)[y * width + i]? =
        (unpackRowAux rd (y * stride) width)[i]? := by
  intro h
  induction h with
  | zero => omega
  | succ n ih =>
    intro y i hy hi
    rcases Nat.lt_or_ge y n with hy' | hy'
    · rw [unpackAll,
        List.getElem?_append_left
          (by rw [unpackAll_length]; calc
            y * width + i < y * width + width := by omega
            _ ≤ n * width := by
              have : y + 1 ≤ n := hy'
              calc y * width + width = (y + 1) * width := by ring
                _ ≤ n * width := Nat.mul_le_mul_right _ this)]
      exact ih y i hy' hi
    · have hyn : y = n := by omega
      subst hyn
      rw [unpackAll,
        List.getElem?_append_right (by rw [unpackAll_length]; omega)]
      rw [unpackAll_length]
      congr 1
      omega

-- A byte OR a 2-bit value shifted left by 8 stays below 1024.
set_option maxRecDepth 4096 in
theorem or_shift8_lt : ∀ b < 256, ∀ c ≤ 3, b ||| (c <<< 8) < 1024 := by
  decide

theorem decodeGroup_mem_lt {b0 b1 b2 b3 b4 : Nat} (h0 : b0 < 256)
    (h1 : b1 < 256) (h2 : b2 < 256) (h3 : b3 < 256) :
    ∀ v ∈ decodeGroup b0 b1 b2 b3 b4, v < 1024 := by
  intro v hv
  simp only [decodeGroup, List.mem_cons, List.not_mem_nil, or_false] at hv
  rcases hv with h | h | h | h <;> subst h <;>
    exact or_shift8_lt _ (by assumption) _ Nat.and_le_right

theorem unpackRowAux_mem_lt (rd : Nat → Nat) (hrd : ∀ i, rd i < 256)
    (pos rem : Nat) : ∀ v ∈ unpackRowAux rd pos rem, v < 1024 := by
  induction rem using Nat.strong_induction_on generalizing pos with
  | _ rem ih =>
    intro v hv
    match rem with
    | 0 => simp [unpackRowAux] at hv
    | 1 | 2 | 3 =>
      rw [unpackRowAux_small rd pos _ (by omega)] at hv
      exact decodeGroup_mem_lt (hrd _) (hrd _) (hrd _) (hrd _) v
        (List.mem_of_mem_take hv)
    | n + 4 =>
      rw [unpackRowAux_four] at hv
      rcases List.mem_append.1 hv with h | h
      · exact decodeGroup_mem_lt (hrd _) (hrd _) (hrd _) (hrd _) v
          (List.mem_of_mem_take h)
      · exact ih n (by omega) (pos + 5) v h

theorem unpackAll_mem_lt (rd : Nat → Nat) (hrd : ∀ i, rd i < 256)
    (stride width h : Nat) : ∀ v ∈ unpackAll rd stride width h, v < 1024 := by
  induction h with
  | zero => intro v hv; simp [unpackAll] at hv
  | succ n ih =>
    intro v hv
    rcases List.mem_append.1 hv with h | h
    · exact ih v h
    · exact unpackRowAux_mem_lt rd hrd _ _ v h

/-- Inversion of a successful unpack: the checks passed and the output
is the decoded buffer. -/
theorem unpack_some_inv {fb : FrameBuffer} {p : Plane} {m : Nat → Nat}
    {width height dstSize : Nat} {out : List Nat}
    (hp : fb.planes = [p]) (hm : fb.mem = some m)
    (hacc : unpackRaw10To16 fb width height dstSize = some out) :
    dstSize = width * height ∧
      ((width * 10 + 7) / 8) * height ≤ p.length ∧
      out = unpackAll (fun i => m (p.offset + i) % 256)
        ((width * 10 + 7) / 8) width height := by
  unfold unpackRaw10To16 at hacc
  rw [hp, hm] at hacc
  simp only [List.length_cons, List.length_nil] at hacc
  split_ifs at hacc with h1 h2
  · simp only [Option.some.injEq] at hacc
    exact ⟨by omega, by omega, hacc.symm⟩

/-! ### Claims about the unpacker -/

/-- C1: for every packed input accepted by unpackRaw10To16 (single plane,
dst length = width*height, mapped base present, plane length at least
stride*height), every complete 4-pixel group g of every row y is decoded
from its five bytes b0..b4 at line offset 5*g by
pixel_k = b_k | (((b4 >> 2k) & 3) << 8), and every emitted sample is
below 1024 (upper 6 bits of the 16-bit sample are zero). -/
theorem unpack_complete_group_decode {fb : FrameBuffer} {p : Plane}
    {m : Nat → Nat} {width height dstSize : Nat} {out : List Nat}
    (hp : fb.planes = [p]) (hm : fb.mem = some m)
    (hacc : unpackRaw10To16 fb width height dstSize = some out) :
    (∀ v ∈ out, v < 1024) ∧
    ∀ y g j, y < height → j < 4 → 4 * (g + 1) ≤ width →
      out[y * width + (4 * g + j)]? =
        (decodeGroup
          (m (p.offset + (y * ((width * 10 + 7) / 8) + 5 * g)) % 256)
          (m (p.offset + (y * ((width * 10 + 7) / 8) + 5 * g + 1)) % 256)
          (m (p.offset + (y * ((width * 10 + 7) / 8) + 5 * g + 2)) % 256)
          (m (p.offset + (y * ((width * 10 + 7) / 8) + 5 * g + 3)) % 256)
          (m (p.offset + (y * ((width * 10 + 7) / 8) + 5 * g + 4)) % 256))[j]? := by
  obtain ⟨hd, hlen, hout⟩ := unpack_some_inv hp hm hacc
  subst hout
  constructor
  · exact unpackAll_mem_lt _ (fun i => Nat.mod_lt _ (by norm_num)) _ _ _
  · intro y g j hy hj hw
    rw [unpackAll_getElem _ _ _ height y _ hy (by omega)]
    exact unpackRowAux_getElem _ g _ _ j hj (by omega)

-- Concrete memories for the out-of-bounds witness of C2: they agree on
-- every byte below stride*height = 7 but differ at byte index 9.
def oobMemA : Nat → Nat := fun _ => 0

def oobMemB : Nat → Nat := fun i => if i = 9 then 3 else 0

/-- C2 (falsified by the code): for width 5 (not a multiple of 4),
height 1 and a plane of exactly stride*height = 7 bytes, the unpacker
still reads byte index 9: two memories that agree on every byte index
below 7 produce different accepted outputs, so the read of the partial
group's fifth byte escapes the plane bounds, contradicting the claim
that no read index reaches stride*height. -/
theorem unpack_oob_read :
    (List.range 7).map oobMemA = (List.range 7).map oobMemB ∧
    (5 * 10 + 7) / 8 * 1 = 7 ∧
    unpackRaw10To16 ⟨[⟨0, 7⟩], some oobMemA⟩ 5 1 5 = some [0, 0, 0, 0, 0] ∧
    unpackRaw10To16 ⟨[⟨0, 7⟩], some oobMemB⟩ 5 1 5 = some [0, 0, 0, 0, 768] :=
  ⟨by decide, by decide, by decide, by decide⟩

/-- C8: for every width that is not a multiple of 4 and every accepted
input, the output holds exactly width samples per row (width*height in
total), and the trailing samples of each row are exactly the leading
width%4 pixels of the row's final partial group (group number width/4);
the synthesized trailing pixels of that group are never written. -/
theorem unpack_partial_group_row {fb : FrameBuffer} {p : Plane}
    {m : Nat → Nat} {width height dstSize : Nat} {out : List Nat}
    (hp : fb.planes = [p]) (hm : fb.mem = some m) (_hw : width % 4 ≠ 0)
    (hacc : unpackRaw10To16 fb width height dstSize = some out) :
    out.length = width * height ∧
    ∀ y j, y < height → j < width % 4 →
      out[y * width + (4 * (width / 4) + j)]? =
        (decodeGroup
          (m (p.offset + (y * ((width * 10 + 7) / 8) + 5 * (width / 4))) % 256)
          (m (p.offset + (y * ((width * 10 + 7) / 8) + 5 * (width / 4) + 1)) % 256)
          (m (p.offset + (y * ((width * 10 + 7) / 8) + 5 * (width / 4) + 2)) % 256)
          (m (p.offset + (y * ((width * 10 + 7) / 8) + 5 * (width / 4) + 3)) % 256)
          (m (p.offset + (y * ((width * 10 + 7) / 8) + 5 * (width / 4) + 4)) % 256))[j]? := by
  obtain ⟨hd, hlen, hout⟩ := unpack_some_inv hp hm hacc
  subst hout
  refine ⟨by rw [unpackAll_length]; ring, ?_⟩
  intro y j hy hj
  have hjw : 4 * (width / 4) + j < width := by omega
  rw [unpackAll_getElem _ _ _ height y _ hy hjw]
  exact unpackRowAux_getElem _ (width / 4) _ _ j (by omega) hjw

/-- C7 counterexample: a frame buffer whose mapped base pointer (the
cookie) is null is rejected even though none of the three advertised
failure conditions holds, so the claimed iff fails as stated. -/
theorem unpack_nullbase_counterexample :
    unpackRaw10To16 ⟨[⟨0, 100⟩], none⟩ 1 1 1 = none ∧
    (1 : Nat) = 1 * 1 ∧ ([(⟨0, 100⟩ : Plane)]).length = 1 ∧
    ¬ ((100 : Nat) < (1 * 10 + 7) / 8 * 1) :=
  ⟨rfl, rfl, rfl, by decide⟩

/-- C7 (amended): for a non-null frame buffer whose mapped base pointer
is also non-null, unpackRaw10To16 fails exactly when the output capacity
differs from width*height, or more than (or fewer than) one plane is
presented, or the single plane holds fewer than stride*height bytes. -/
theorem unpack_failure_iff {planes : List Plane} {m : Nat → Nat}
    (width height dstSize : Nat) :
    unpackRaw10To16 ⟨planes, some m⟩ width height dstSize = none ↔
      (dstSize ≠ width * height ∨ planes.length ≠ 1 ∨
        ∃ p, planes = [p] ∧
          p.length < ((width * 10 + 7) / 8) * height) := by
  unfold unpackRaw10To16
  rcases planes with _ | ⟨p, _ | ⟨q, rest⟩⟩
  · simp
  · by_cases h1 : dstSize = width * height
    · simp only [h1, ne_eq, not_true_eq_false, if_false, ite_not,
        List.length_cons, List.length_nil]
      by_cases h2 : p.length < ((width * 10 + 7) / 8) * height
      · simp [h2]
      · simp [h2]
    · simp [h1]
  · simp [Nat.succ_ne_zero]

theorem unpack_complete_group_decode_witness :
    (∀ v ∈ ([0, 257, 2, 3] : List Nat), v < 1024) ∧
    ([0, 257, 2, 3] : List Nat)[0 * 4 + (4 * 0 + 1)]? =
      (decodeGroup ((0 + (0 * ((4 * 10 + 7) / 8) + 5 * 0)) % 256)
        ((0 + (0 * ((4 * 10 + 7) / 8) + 5 * 0 + 1)) % 256)
        ((0 + (0 * ((4 * 10 + 7) / 8) + 5 * 0 + 2)) % 256)
        ((0 + (0 * ((4 * 10 + 7) / 8) + 5 * 0 + 3)) % 256)
        ((0 + (0 * ((4 * 10 + 7) / 8) + 5 * 0 + 4)) % 256))[1]? := by
  have h := @unpack_complete_group_decode ⟨[⟨0, 5⟩], some (fun i => i)⟩
    ⟨0, 5⟩ (fun i => i) 4 1 4 [0, 257, 2, 3] rfl rfl (by decide)
  exact ⟨h.1, h.2 0 0 1 (by decide) (by decide) (by decide)⟩

theorem unpack_partial_group_row_witness :
    ([0, 257, 2, 3, 261, 518] : List Nat).length = 6 * 1 ∧
    ([0, 257, 2, 3, 261, 518] : List Nat)[0 * 6 + (4 * (6 / 4) + 1)]? =
      (decodeGroup ((0 + (0 * ((6 * 10 + 7) / 8) + 5 * (6 / 4))) % 256)
        ((0 + (0 * ((6 * 10 + 7) / 8) + 5 * (6 / 4) + 1)) % 256)
        ((0 + (0 * ((6 * 10 + 7) / 8) + 5 * (6 / 4) + 2)) % 256)
        ((0 + (0 * ((6 * 10 + 7) / 8) + 5 * (6 / 4) + 3)) % 256)
        ((0 + (0 * ((6 * 10 + 7) / 8) + 5 * (6 / 4) + 4)) % 256))[1]? := by
  have h := @unpack_partial_group_row ⟨[⟨0, 8⟩], some (fun i => i)⟩
    ⟨0, 8⟩ (fun i => i) 6 1 6 [0, 257, 2, 3, 261, 518]
    rfl rfl (by decide) (by decide)
  exact ⟨h.1, h.2 0 1 (by decide) (by decide)⟩

theorem unpack_failure_iff_witness :
    unpackRaw10To16 ⟨[⟨0, 0⟩], some (fun _ => 0)⟩ 2 2 3 = none :=
  (unpack_failure_iff 2 2 3).mpr (Or.inl (by decide))

/-! ### The spec's packing rule and the round trip (C4) -/

/-- The spec's 4-pixel/5-byte packing rule (spec sections 4.1 and 8):
b0..b3 carry the four pixels' low 8 bits, b4 packs the four 2-bit high
parts, pixel0 in bits 0-1 through pixel3 in bits 6-7.  For a value below
1024 the high part is v / 256, so b4 is
p0/256 + 4*(p1/256) + 16*(p2/256) + 64*(p3/256). -/
def packGroupSpec (p0 p1 p2 p3 : Nat) : List Nat :=
  [p0 % 256, p1 % 256, p2 % 256, p3 % 256,
    p0 / 256 + 4 * (p1 / 256) + 16 * (p2 / 256) + 64 * (p3 / 256)]

/-- Packs a row-major sample buffer group by group; a trailing partial
group (unused by the claims, which take 4 ∣ width) is padded with zero
pixels. -/
def packRowSpec : List Nat → List Nat
  | p0 :: p1 :: p2 :: p3 :: rest => packGroupSpec p0 p1 p2 p3 ++ packRowSpec rest
  | [] => []
  | l => packGroupSpec (l.getD 0 0) (l.getD 1 0) (l.getD 2 0) (l.getD 3 0)

theorem packRowSpec_cons4 (p0 p1 p2 p3 : Nat) (rest : List Nat) :
    packRowSpec (p0 :: p1 :: p2 :: p3 :: rest) =
      packGroupSpec p0 p1 p2 p3 ++ packRowSpec rest := rfl

-- Extraction of the four 2-bit fields packed into the fifth byte.
set_option maxRecDepth 2048 in
theorem b4_extract : ∀ a < 4, ∀ b < 4, ∀ c < 4, ∀ d < 4,
    (a + 4 * b + 16 * c + 64 * d) &&& 3 = a ∧
    ((a + 4 * b + 16 * c + 64 * d) >>> 2) &&& 3 = b ∧
    ((a + 4 * b + 16 * c + 64 * d) >>> 4) &&& 3 = c ∧
    ((a + 4 * b + 16 * c + 64 * d) >>> 6) &&& 3 = d := by
  decide

-- OR of a byte with a 2-bit value shifted by 8 is plain addition.
set_option maxRecDepth 4096 in
theorem or_shift8_eq : ∀ b < 256, ∀ c < 4, b ||| (c <<< 8) = b + 256 * c := by
  decide

/-- Decoding inverts the spec's packing of one complete group. -/
theorem decodeGroup_packGroupSpec (p0 p1 p2 p3 : Nat) (h0 : p0 < 1024)
    (h1 : p1 < 1024) (h2 : p2 < 1024) (h3 : p3 < 1024) :
    decodeGroup (p0 % 256) (p1 % 256) (p2 % 256) (p3 % 256)
      (p0 / 256 + 4 * (p1 / 256) + 16 * (p2 / 256) + 64 * (p3 / 256)) =
      [p0, p1, p2, p3] := by
  have e := b4_extract (p0 / 256) (by omega) (p1 / 256) (by omega)
    (p2 / 256) (by omega) (p3 / 256) (by omega)
  simp only [decodeGroup, e.1, e.2.1, e.2.2.1, e.2.2.2]
  rw [or_shift8_eq _ (Nat.mod_lt _ (by norm_num)) _ (by omega),
    or_shift8_eq _ (Nat.mod_lt _ (by norm_num)) _ (by omega),
    or_shift8_eq _ (Nat.mod_lt _ (by norm_num)) _ (by omega),
    or_shift8_eq _ (Nat.mod_lt _ (by norm_num)) _ (by omega)]
  simp [Nat.mod_add_div]

theorem packRowSpec_length4 : ∀ (k : Nat) (ps : List Nat),
    ps.length = 4 * k → (packRowSpec ps).length = 5 * k := by
  intro k
  induction k with
  | zero =>
    intro ps h
    have hps : ps = [] := List.length_eq_zero.1 (by omega)
    subst hps
    rfl
  | succ n ih =>
    intro ps h
    match ps, h with
    | p0 :: p1 :: p2 :: p3 :: rest, h =>
      rw [packRowSpec_cons4]
      simp only [List.length_append, packGroupSpec, List.length_cons,
        List.length_nil]
      rw [ih rest (by simp at h; omega)]
      omega

theorem packRowSpec_append4 : ∀ (k : Nat) (ps qs : List Nat),
    ps.length = 4 * k →
    packRowSpec (ps ++ qs) = packRowSpec ps ++ packRowSpec qs := by
  intro k
  induction k with
  | zero =>
    intro ps qs h
    have hps : ps = [] := List.length_eq_zero.1 (by omega)
    subst hps
    simp [packRowSpec]
  | succ n ih =>
    intro ps qs h
    match ps, h with
    | p0 :: p1 :: p2 :: p3 :: rest, h =>
      simp only [List.cons_append, packRowSpec_cons4]
      rw [ih rest qs (by simp at h; omega)]
      simp

theorem packRowSpec_getD_lt256 : ∀ (k : Nat) (ps : List Nat),
    ps.length = 4 * k → (∀ v ∈ ps, v < 1024) →
    ∀ j, (packRowSpec ps).getD j 0 < 256 := by
  intro k
  induction k with
  | zero =>
    intro ps h _ j
    have hps : ps = [] := List.length_eq_zero.1 (by omega)
    subst hps
    simp [packRowSpec]
  | succ n ih =>
    intro ps h hv j
    match ps, h with
    | p0 :: p1 :: p2 :: p3 :: rest, h =>
      rw [packRowSpec_cons4]
      have hb4 : p0 / 256 + 4 * (p1 / 256) + 16 * (p2 / 256) +
          64 * (p3 / 256) < 256 := by
        have v0 := hv p0 (by simp)
        have v1 := hv p1 (by simp)
        have v2 := hv p2 (by simp)
        have v3 := hv p3 (by simp)
        omega
      match j with
      | 0 => simpa [packGroupSpec] using Nat.mod_lt p0 (y := 256) (by norm_num)
      | 1 => simpa [packGroupSpec] using Nat.mod_lt p1 (y := 256) (by norm_num)
      | 2 => simpa [packGroupSpec] using Nat.mod_lt p2 (y := 256) (by norm_num)
      | 3 => simpa [packGroupSpec] using Nat.mod_lt p3 (y := 256) (by norm_num)
      | 4 => simpa [packGroupSpec] using hb4
      | j + 5 =>
        have := ih rest (by simp at h; omega)
          (fun v hv' => hv v (by simp [hv'])) j
        simpa [packGroupSpec] using this

/-- One packed row decodes back to its pixels: the reader `rd` agrees
with the packed bytes of `ps` on the 5*k bytes starting at `pos`. -/
theorem unpackRowAux_packRowSpec : ∀ (k : Nat) (ps : List Nat)
    (rd : Nat → Nat) (pos : Nat), ps.length = 4 * k →
    (∀ v ∈ ps, v < 1024) →
    (∀ j, j < 5 * k → rd (pos + j) = (packRowSpec ps).getD j 0) →
    unpackRowAux rd pos (4 * k) = ps := by
  intro k
  induction k with
  | zero =>
    intro ps rd pos h _ _
    have hps : ps = [] := List.length_eq_zero.1 (by omega)
    subst hps
    rfl
  | succ n ih =>
    intro ps rd pos h hv hrd
    match ps, h with
    | p0 :: p1 :: p2 :: p3 :: rest, h =>
      have e0 : rd pos = p0 % 256 := by
        have := hrd 0 (by omega); simpa [packRowSpec_cons4, packGroupSpec] using this
      have e1 : rd (pos + 1) = p1 % 256 := by
        have := hrd 1 (by omega); simpa [packRowSpec_cons4, packGroupSpec] using this
      have e2 : rd (pos + 2) = p2 % 256 := by
        have := hrd 2 (by omega); simpa [packRowSpec_cons4, packGroupSpec] using this
      have e3 : rd (pos + 3) = p3 % 256 := by
        have := hrd 3 (by omega); simpa [packRowSpec_cons4, packGroupSpec] using this
      have e4 : rd (pos + 4) = p0 / 256 + 4 * (p1 / 256) + 16 * (p2 / 256) +
          64 * (p3 / 256) := by
        have := hrd 4 (by omega); simpa [packRowSpec_cons4, packGroupSpec] using this
      have hk4 : 4 * (n + 1) = n * 4 + 4 := by ring
      rw [hk4, unpackRowAux_four, e0, e1, e2, e3, e4,
        decodeGroup_packGroupSpec p0 p1 p2 p3 (hv p0 (by simp))
          (hv p1 (by simp)) (hv p2 (by simp)) (hv p3 (by simp))]
      rw [List.take_of_length_le (by simp)]
      have hrest : unpackRowAux rd (pos + 5) (4 * n) = rest := by
        refine ih rest rd (pos + 5) (by simp at h; omega)
          (fun v hv' => hv v (by simp [hv'])) ?_
        intro j hj
        have := hrd (5 + j) (by omega)
        rw [show pos + (5 + j) = pos + 5 + j by omega] at this
        rw [this, packRowSpec_cons4]
        have : (packGroupSpec p0 p1 p2 p3 ++ packRowSpec rest).getD (5 + j) 0 =
            (packRowSpec rest).getD j 0 := by
          simp only [List.getD_eq_getElem?_getD]
          rw [List.getElem?_append_right (by simp [packGroupSpec])]
          simp [packGroupSpec]
        simpa using this
      rw [show n * 4 = 4 * n by ring, hrest]
      rfl

/-- The whole packed buffer decodes back to the sample buffer, row by
row, when the row stride is the exact packed row size 5*k (width 4*k). -/
theorem unpackAll_packRowSpec (k : Nat) (hk : 0 ≤ k) :
    ∀ (h : Nat) (buf : List Nat) (rd : Nat → Nat),
    buf.length = 4 * k * h → (∀ v ∈ buf, v < 1024) →
    (∀ j, j < 5 * (k * h) → rd j = (packRowSpec buf).getD j 0) →
    unpackAll rd (5 * k) (4 * k) h = buf := by
  intro h
  induction h with
  | zero =>
    intro buf rd hlen _ _
    have hb : buf = [] := List.length_eq_zero.1 (by omega)
    subst hb
    rfl
  | succ n ih =>
    intro buf rd hlen hv hrd
    have hdist4 : 4 * k * (n + 1) = 4 * k * n + 4 * k := by ring
    have hdist5 : 5 * (k * (n + 1)) = 5 * (k * n) + 5 * k := by ring
    have hpos : n * (5 * k) = 5 * (k * n) := by ring
    have hfront : (buf.take (4 * k * n)).length = 4 * k * n := by
      rw [List.length_take, hlen]; omega
    have hlast : (buf.drop (4 * k * n)).length = 4 * k := by
      rw [List.length_drop, hlen]; omega
    have hsplit : packRowSpec buf =
        packRowSpec (buf.take (4 * k * n)) ++
          packRowSpec (buf.drop (4 * k * n)) := by
      conv_lhs => rw [← List.take_append_drop (4 * k * n) buf]
      exact packRowSpec_append4 (k * n) _ _ (by rw [hfront]; ring)
    have hflen : (packRowSpec (buf.take (4 * k * n))).length = 5 * (k * n) := by
      exact packRowSpec_length4 (k * n) _ (by rw [hfront]; ring)
    rw [unpackAll]
    have hfrontEq : unpackAll rd (5 * k) (4 * k) n = buf.take (4 * k * n) := by
      refine ih (buf.take (4 * k * n)) rd hfront
        (fun v hv' => hv v (List.mem_of_mem_take hv')) ?_
      intro j hj
      rw [hrd j (by omega), hsplit]
      simp only [List.getD_eq_getElem?_getD]
      rw [List.getElem?_append_left (by rw [hflen]; exact hj)]
    have hlastEq : unpackRowAux rd (n * (5 * k)) (4 * k) =
        buf.drop (4 * k * n) := by
      refine unpackRowAux_packRowSpec k _ rd _ hlast
        (fun v hv' => hv v (List.mem_of_mem_drop hv')) ?_
      intro j hj
      rw [hrd (n * (5 * k) + j) (by omega), hsplit]
      simp only [List.getD_eq_getElem?_getD]
      rw [List.getElem?_append_right (by rw [hflen]; omega)]
      rw [hflen]
      have hidx : n * (5 * k) + j - 5 * (k * n) = j := by omega
      rw [hidx]
    rw [hfrontEq, hlastEq, List.take_append_drop]

/-- For width a multiple of 4, the packed stride is the exact group
size: (width*10+7)/8 = 5*(width/4). -/
theorem stride_of_four_dvd {w : Nat} (hw : 4 ∣ w) :
    (w * 10 + 7) / 8 = 5 * (w / 4) := by
  obtain ⟨k, rfl⟩ := hw
  omega

/-- C4: for every width that is a multiple of 4 and every buffer of
width*height samples with values in 0..1023, packing by the spec's
4-pixel/5-byte rule and then applying unpackRaw10To16 (on a single plane
of exactly stride*height bytes) reproduces the buffer exactly. -/
theorem unpack_pack_roundtrip (width height : Nat) (buf : List Nat)
    (hw : 4 ∣ width) (hlen : buf.length = width * height)
    (hval : ∀ v ∈ buf, v < 1024) :
    unpackRaw10To16
      ⟨[⟨0, ((width * 10 + 7) / 8) * height⟩],
        some (fun i => (packRowSpec buf).getD i 0)⟩
      width height (width * height) = some buf := by
  obtain ⟨k, rfl⟩ := hw
  have hmain := unpackAll_packRowSpec k (Nat.zero_le k) height buf
    (fun i => (packRowSpec buf).getD (0 + i) 0 % 256) hlen hval
    (by
      intro j hj
      show (packRowSpec buf).getD (0 + j) 0 % 256 = (packRowSpec buf).getD j 0
      rw [Nat.zero_add]
      exact Nat.mod_eq_of_lt (packRowSpec_getD_lt256 (k * height) buf
        (by rw [hlen]; ring) hval j))
  unfold unpackRaw10To16
  rw [if_neg (by omega)]
  rw [if_neg (by simp)]
  dsimp only
  rw [show (4 * k * 10 + 7) / 8 = 5 * k from by omega]
  rw [if_neg (Nat.lt_irrefl _)]
  rw [hmain]

theorem unpack_pack_roundtrip_witness :
    unpackRaw10To16
      ⟨[⟨0, ((4 * 10 + 7) / 8) * 1⟩],
        some (fun i => (packRowSpec [1, 513, 300, 1023]).getD i 0)⟩
      4 1 (4 * 1) = some [1, 513, 300, 1023] :=
  unpack_pack_roundtrip 4 1 [1, 513, 300, 1023] ⟨1, rfl⟩ (by decide) (by decide)

/-! ### The DNG writer (src/DngWriter.cpp) -/

/-- The BayerPattern enum of DngWriter.hpp. -/
inductive BayerPattern where
  | RGGB
  | BGGR
  | GRBG
  | GBRG
deriving DecidableEq

/-- DngMeta (DngWriter.hpp lines 26-37).  The uint16_t fields are
modelled as Nat (serialization masks to 16 bits).  analogGain and
exposureSeconds are C++ floats that the writer never reads; they are
modelled as rationals.  cfaIlluminant is a float cast to uint16_t at its
single use; it is modelled as the Nat value of that cast. -/
structure DngMeta where
  width : Nat
  height : Nat
  bayer : BayerPattern
  bitsPerSample : Nat
  blackLevel : Nat
  whiteLevel : Nat
  analogGain : Rat
  exposureSeconds : Rat
  cfaIlluminant : Nat

/-- bayerPattern2x2 (DngWriter.cpp lines 76-91): the 2x2 CFAPattern
values, 0=Red, 1=Green, 2=Blue. -/
def bayerPattern2x2 : BayerPattern → List Nat
  | BayerPattern.RGGB => [0, 1, 1, 2]
  | BayerPattern.BGGR => [2, 1, 1, 0]
  | BayerPattern.GRBG => [1, 0, 2, 1]
  | BayerPattern.GBRG => [1, 2, 0, 1]

/-- toBayer (DngWriter.cpp lines 95-106): exact match against the four
canonical uppercase tokens, anything else falls back to RGGB. -/
def toBayer (s : String) : BayerPattern :=
  if s = "RGGB" then BayerPattern.RGGB
  else if s = "BGGR" then BayerPattern.BGGR
  else if s = "GRBG" then BayerPattern.GRBG
  else if s = "GBRG" then BayerPattern.GBRG
  else BayerPattern.RGGB

/-- The output file stream: the bytes written so far and the current
put position (tellp/seekp).  A byte is a Nat below 256. -/
structure FileState where
  data : List Nat
  pos : Nat

/-- ofstream::write at the current put position: overwrites in place,
extends at the end, and zero-fills any gap left by seeking past the
end (POSIX sparse-write semantics). -/
def fsWrite (s : FileState) (bs : List Nat) : FileState :=
  let d := s.data ++ List.replicate (s.pos - s.data.length) 0
  ⟨d.take s.pos ++ bs ++ d.drop (s.pos + bs.length), s.pos + bs.length⟩

/-- ofstream::seekp. -/
def fsSeek (s : FileState) (p : Nat) : FileState := ⟨s.data, p⟩

/-- The align2 lambda (DngWriter.cpp lines 140-147): write a single zero
pad byte when the current offset is odd. -/
def fsAlign2 (s : FileState) : FileState :=
  if s.pos % 2 ≠ 0 then fsWrite s [0] else s

/-- Little-endian bytes of a uint16_t value. -/
def u16le (v : Nat) : List Nat := [v % 256, v / 256 % 256]

/-- Little-endian bytes of a uint32_t value. -/
def u32le (v : Nat) : List Nat :=
  [v % 256, v / 256 % 256, v / 65536 % 256, v / 16777216 % 256]

/-- The 12 bytes of one IfdEntry (tag:2, type:2, count:4, value:4),
written little-endian with no struct padding. -/
def ifdEntryBytes (tag ty cnt val : Nat) : List Nat :=
  u16le tag ++ u16le ty ++ u32le cnt ++ u32le val

/-- writeArraySHORT (DngWriter.cpp lines 156-163): 2-byte align, record
the offset, write each uint16_t little-endian. -/
def writeArraySHORT (s : FileState) (arr : List Nat) : Nat × FileState :=
  let s1 := fsAlign2 s
  (s1.pos, fsWrite s1 (arr.map u16le).flatten)

/-- writeArrayBYTE (DngWriter.cpp lines 165-171). -/
def writeArrayBYTE (s : FileState) (arr : List Nat) : Nat × FileState :=
  let s1 := fsAlign2 s
  (s1.pos, fsWrite s1 (arr.map (· % 256)))

/-- writeArrayRATIONAL (DngWriter.cpp lines 173-183): pairs of 4-byte
numerator and denominator. -/
def writeArrayRATIONAL (s : FileState) (arr : List (Nat × Nat)) :
    Nat × FileState :=
  let s1 := fsAlign2 s
  (s1.pos, fsWrite s1 (arr.map (fun p => u32le p.1 ++ u32le p.2)).flatten)

/-- writeAscii (DngWriter.cpp lines 185-192): the string bytes plus a
terminating NUL; note: no 2-byte alignment in the source. -/
def writeAscii (s : FileState) (str : List Nat) : Nat × FileState :=
  (s.pos, fsWrite s (str ++ [0]))

/-- The ASCII bytes of the fixed UniqueCameraModel string. -/
def ucmStr : List Nat :=
  "Raspberry Pi Global Shutter Camera IMX296".toList.map Char.toNat

/-- The block and strip offsets that DngWriter::write records in its
locals (bpsOff, cfaDimOff, cfaPattOff, cfaPlaneColorOff, defaultScaleOff,
dngVerOff, ucmOff, blackOff, whiteOff, cmOff, stripOffset), surfaced
alongside the stream for specification purposes. -/
structure DngOffsets where
  bps : Nat
  cfaDim : Nat
  cfaPatt : Nat
  cfaPlaneColor : Nat
  defaultScale : Nat
  dngVer : Nat
  ucm : Nat
  black : Nat
  white : Nat
  cm : Nat
  strip : Nat
deriving DecidableEq

/-- DngWriter::write (DngWriter.cpp lines 108-288).  `openOk` models
whether the ofstream opened successfully; the dimension check precedes
the open, so on a size mismatch no file is touched.  The result is the
final stream bytes plus the recorded offsets; `none` models
`return false`. -/
def dngWrite (openOk : Bool) (meta : DngMeta) (pixels : List Nat) :
    Option (List Nat × DngOffsets) :=
  if pixels.length ≠ meta.width * meta.height then none
  else if openOk = false then none
  else
    let w := meta.width
    let h := meta.height
    let s0 : FileState := ⟨[], 0⟩
    let s1 := fsWrite s0 (u16le 0x4949 ++ u16le 42 ++ u32le 8)
    let ifdStart := s1.pos
    let entryCount := 16 + 6
    let s2 := fsSeek s1 (ifdStart + (2 + entryCount * 12 + 4))
    let r3 := writeArraySHORT s2 [meta.bitsPerSample]
    let spp := 1
    let r4 := writeArraySHORT r3.2 [2, 2]
    let patt := bayerPattern2x2 meta.bayer
    let r5 := writeArrayBYTE r4.2 patt
    let r6 := writeArrayBYTE r5.2 [0, 1, 2]
    let r7 := writeArrayRATIONAL r6.2 [(1, 1), (1, 1)]
    let r8 := writeArrayBYTE r7.2 [1, 4, 0, 0]
    let r9 := writeAscii r8.2 ucmStr
    let r10 := writeArraySHORT r9.2 [meta.blackLevel]
    let r11 := writeArraySHORT r10.2 [meta.whiteLevel]
    let illuminant := meta.cfaIlluminant
    let r12 := writeArrayRATIONAL r11.2
      [(1, 1), (0, 1), (0, 1), (0, 1), (1, 1), (0, 1), (0, 1), (0, 1), (1, 1)]
    let s13 := fsAlign2 r12.2
    let stripOffset := s13.pos
    let s14 := fsWrite s13 (pixels.map u16le).flatten
    let stripByteCount := w * h * 2
    let entries : List (Nat × Nat × Nat × Nat) :=
      [ (256, 4, 1, w), (257, 4, 1, h), (258, 3, 1, r3.1), (259, 3, 1, 1),
        (262, 3, 1, 32803), (277, 3, 1, spp), (284, 3, 1, 1), (278, 4, 1, h),
        (273, 4, 1, stripOffset), (279, 4, 1, stripByteCount),
        (33421, 3, 2, r4.1), (33422, 1, 4, r5.1), (50710, 1, 3, r6.1),
        (50706, 1, 4, r8.1), (50708, 2, ucmStr.length + 1, r9.1),
        (50714, 3, 1, r10.1), (50717, 3, 1, r11.1), (50733, 5, 2, r7.1),
        (50778, 3, 1, illuminant), (50721, 5, 9, r12.1) ]
    let endPos := s14.pos
    let s15 := fsSeek s14 ifdStart
    let s16 := fsWrite s15
      (u16le entries.length
        ++ (entries.map (fun e => ifdEntryBytes e.1 e.2.1 e.2.2.1 e.2.2.2)).flatten
        ++ u32le 0)
    let s17 := fsSeek s16 endPos
    some (s17.data,
      ⟨r3.1, r4.1, r5.1, r6.1, r7.1, r8.1, r9.1, r10.1, r11.1, r12.1,
        stripOffset⟩)

/-! ### The writer's resolved layout -/

/-- The offsets the writer always records: the block region follows the
278-byte header-plus-placeholder prefix and is laid out identically for
every input. -/
def dngOffsetsSpec : DngOffsets :=
  ⟨278, 280, 284, 288, 292, 308, 312, 354, 356, 358, 430⟩

/-- The 8 header bytes: little-endian marker, 42, directory offset 8. -/
def dngHeaderBytes : List Nat := u16le 0x4949 ++ u16le 42 ++ u32le 8

/-- The 20 directory entries (tag, type, count, value) in push order,
with every out-of-line value resolved to its fixed offset. -/
def dngDirEntries (meta : DngMeta) : List (Nat × Nat × Nat × Nat) :=
  [ (256, 4, 1, meta.width), (257, 4, 1, meta.height), (258, 3, 1, 278),
    (259, 3, 1, 1), (262, 3, 1, 32803), (277, 3, 1, 1), (284, 3, 1, 1),
    (278, 4, 1, meta.height), (273, 4, 1, 430),
    (279, 4, 1, meta.width * meta.height * 2),
    (33421, 3, 2, 280), (33422, 1, 4, 284), (50710, 1, 3, 288),
    (50706, 1, 4, 308), (50708, 2, ucmStr.length + 1, 312),
    (50714, 3, 1, 354), (50717, 3, 1, 356), (50733, 5, 2, 292),
    (50778, 3, 1, meta.cfaIlluminant), (50721, 5, 9, 358) ]

/-- The directory table: entry count 20, the 20 entries, then the 4-byte
zero next-IFD terminator; 246 bytes at stream offset 8. -/
def dngDirBytes (meta : DngMeta) : List Nat :=
  u16le 20
    ++ ((dngDirEntries meta).map
      (fun e => ifdEntryBytes e.1 e.2.1 e.2.2.1 e.2.2.2)).flatten
    ++ u32le 0

/-- The out-of-line data blocks in write order, starting at stream
offset 278: BitsPerSample, CFARepeatPatternDim, CFAPattern,
CFAPlaneColor, one alignment pad byte, DefaultScale, DNGVersion, the
camera-model string with NUL, BlackLevel, WhiteLevel, ColorMatrix1;
152 bytes in total. -/
def dngBlocksBytes (meta : DngMeta) : List Nat :=
  u16le meta.bitsPerSample ++ (u16le 2 ++ u16le 2)
    ++ (bayerPattern2x2 meta.bayer).map (· % 256) ++ [0, 1, 2] ++ [0]
    ++ (u32le 1 ++ u32le 1 ++ (u32le 1 ++ u32le 1))
    ++ [1, 4, 0, 0] ++ (ucmStr ++ [0])
    ++ u16le meta.blackLevel ++ u16le meta.whiteLevel
    ++ (u32le 1 ++ u32le 1 ++ (u32le 0 ++ u32le 1) ++ (u32le 0 ++ u32le 1)
      ++ (u32le 0 ++ u32le 1) ++ (u32le 1 ++ u32le 1) ++ (u32le 0 ++ u32le 1)
      ++ (u32le 0 ++ u32le 1) ++ (u32le 0 ++ u32le 1) ++ (u32le 1 ++ u32le 1))

/-- The full stream: header, directory table, 24 bytes of placeholder
slack, the data blocks, then the pixel strip as little-endian 16-bit
words. -/
def dngStream (meta : DngMeta) (pixels : List Nat) : List Nat :=
  dngHeaderBytes ++ dngDirBytes meta ++ List.replicate 24 0
    ++ dngBlocksBytes meta ++ (pixels.map u16le).flatten


/-! ### Step lemmas for the writer state chain -/

theorem u16le_length (v : Nat) : (u16le v).length = 2 := rfl

theorem u32le_length (v : Nat) : (u32le v).length = 4 := rfl

theorem ifdEntryBytes_length (tag ty cnt val : Nat) :
    (ifdEntryBytes tag ty cnt val).length = 12 := rfl

theorem bayerPattern2x2_mod (b : BayerPattern) :
    (bayerPattern2x2 b).map (fun x => x % 256) = bayerPattern2x2 b := by
  cases b <;> rfl

theorem bayerPattern2x2_length (b : BayerPattern) :
    (bayerPattern2x2 b).length = 4 := by cases b <;> rfl

theorem ucmStr_eq : ucmStr =
    [82, 97, 115, 112, 98, 101, 114, 114, 121, 32, 80, 105, 32, 71, 108,
     111, 98, 97, 108, 32, 83, 104, 117, 116, 116, 101, 114, 32, 67, 97,
     109, 101, 114, 97, 32, 73, 77, 88, 50, 57, 54] := by decide

theorem ucmStr_length : ucmStr.length = 41 := by rw [ucmStr_eq]; rfl

theorem shortFlatten_length (arr : List Nat) :
    ((arr.map u16le).flatten).length = 2 * arr.length := by
  induction arr with
  | nil => rfl
  | cons a l ih =>
    simp only [List.map_cons, List.flatten_cons, List.length_append, ih,
      u16le_length, List.length_cons]
    omega

theorem ratFlatten_length (arr : List (Nat × Nat)) :
    ((arr.map (fun p => u32le p.1 ++ u32le p.2)).flatten).length =
      8 * arr.length := by
  induction arr with
  | nil => rfl
  | cons a l ih =>
    simp only [List.map_cons, List.flatten_cons, List.length_append, ih,
      u32le_length, List.length_cons]
    omega

theorem entryFlatten_length (l : List (Nat × Nat × Nat × Nat)) :
    ((l.map (fun e => ifdEntryBytes e.1 e.2.1 e.2.2.1 e.2.2.2)).flatten).length =
      12 * l.length := by
  induction l with
  | nil => rfl
  | cons a t ih =>
    simp only [List.map_cons, List.flatten_cons, List.length_append, ih,
      ifdEntryBytes_length, List.length_cons]
    omega

theorem fsWrite_tail (d : List Nat) (bs : List Nat) :
    fsWrite ⟨d, d.length⟩ bs = ⟨d ++ bs, (d ++ bs).length⟩ := by
  unfold fsWrite
  simp

theorem fsWrite_past (d : List Nat) (p : Nat) (bs : List Nat)
    (h : d.length ≤ p) :
    fsWrite ⟨d, p⟩ bs =
      ⟨d ++ List.replicate (p - d.length) 0 ++ bs,
        (d ++ List.replicate (p - d.length) 0 ++ bs).length⟩ := by
  unfold fsWrite
  have hlen : (d ++ List.replicate (p - d.length) 0).length = p := by
    simp; omega
  simp only []
  rw [List.take_of_length_le (by rw [hlen]),
    List.drop_eq_nil_of_le (by rw [hlen]; omega)]
  simp
  omega

theorem fsAlign2_even (d : List Nat) (h : d.length % 2 = 0) :
    fsAlign2 ⟨d, d.length⟩ = ⟨d, d.length⟩ := by
  unfold fsAlign2
  simp [h]

theorem writeArraySHORT_tail (d : List Nat) (arr : List Nat)
    (h : d.length % 2 = 0) :
    writeArraySHORT ⟨d, d.length⟩ arr =
      (d.length, ⟨d ++ (arr.map u16le).flatten,
        (d ++ (arr.map u16le).flatten).length⟩) := by
  unfold writeArraySHORT
  dsimp only
  rw [fsAlign2_even d h]
  dsimp only
  rw [fsWrite_tail]

theorem writeArraySHORT_past (d : List Nat) (p : Nat) (arr : List Nat)
    (h1 : d.length ≤ p) (h2 : p % 2 = 0) :
    writeArraySHORT ⟨d, p⟩ arr =
      (p, ⟨d ++ List.replicate (p - d.length) 0 ++ (arr.map u16le).flatten,
        (d ++ List.replicate (p - d.length) 0 ++
          (arr.map u16le).flatten).length⟩) := by
  unfold writeArraySHORT fsAlign2
  simp only [h2]
  simp only [ne_eq, not_true_eq_false, if_false]
  rw [fsWrite_past d p _ h1]

theorem writeArrayBYTE_tail (d : List Nat) (arr : List Nat)
    (h : d.length % 2 = 0) :
    writeArrayBYTE ⟨d, d.length⟩ arr =
      (d.length, ⟨d ++ arr.map (fun x => x % 256),
        (d ++ arr.map (fun x => x % 256)).length⟩) := by
  unfold writeArrayBYTE
  dsimp only
  rw [fsAlign2_even d h]
  dsimp only
  rw [fsWrite_tail]

theorem writeArrayRATIONAL_tail (d : List Nat) (arr : List (Nat × Nat))
    (h : d.length % 2 = 0) :
    writeArrayRATIONAL ⟨d, d.length⟩ arr =
      (d.length, ⟨d ++ (arr.map (fun p => u32le p.1 ++ u32le p.2)).flatten,
        (d ++ (arr.map (fun p => u32le p.1 ++ u32le p.2)).flatten).length⟩) := by
  unfold writeArrayRATIONAL
  dsimp only
  rw [fsAlign2_even d h]
  dsimp only
  rw [fsWrite_tail]

theorem fsAlign2_odd (d : List Nat) (h : d.length % 2 = 1) :
    fsAlign2 ⟨d, d.length⟩ = ⟨d ++ [0], (d ++ [0]).length⟩ := by
  unfold fsAlign2
  rw [if_pos (by simp [h])]
  exact fsWrite_tail d [0]

theorem writeArrayRATIONAL_tail_odd (d : List Nat) (arr : List (Nat × Nat))
    (h : d.length % 2 = 1) :
    writeArrayRATIONAL ⟨d, d.length⟩ arr =
      (d.length + 1,
        ⟨d ++ [0] ++ (arr.map (fun p : Nat × Nat => u32le p.1 ++ u32le p.2)).flatten,
          (d ++ [0] ++
            (arr.map (fun p : Nat × Nat => u32le p.1 ++ u32le p.2)).flatten).length⟩) := by
  unfold writeArrayRATIONAL
  dsimp only
  rw [fsAlign2_odd d h]
  dsimp only
  rw [fsWrite_tail]
  norm_num

theorem writeAscii_tail (d : List Nat) (str : List Nat) :
    writeAscii ⟨d, d.length⟩ str =
      (d.length, ⟨d ++ (str ++ [0]), (d ++ (str ++ [0])).length⟩) := by
  unfold writeAscii
  dsimp only
  rw [fsWrite_tail]

theorem fsWrite_inside (d : List Nat) (p : Nat) (bs : List Nat)
    (h : p + bs.length ≤ d.length) :
    fsWrite ⟨d, p⟩ bs =
      ⟨d.take p ++ bs ++ d.drop (p + bs.length), p + bs.length⟩ := by
  unfold fsWrite
  simp only []
  rw [show p - d.length = 0 from by omega]
  simp

theorem fsWrite_start (bs : List Nat) : fsWrite ⟨[], 0⟩ bs = ⟨bs, bs.length⟩ := by
  simpa using fsWrite_tail [] bs

set_option maxHeartbeats 1000000 in
set_option maxRecDepth 10000 in
theorem dngWrite_shape (meta : DngMeta) (pixels : List Nat)
    (hlen : pixels.length = meta.width * meta.height) :
    dngWrite true meta pixels = some (dngStream meta pixels, dngOffsetsSpec) := by
  unfold dngWrite
  rw [if_neg (by omega)]
  rw [if_neg (by simp)]
  simp (disch := simp [u16le_length, u32le_length, shortFlatten_length,
      ratFlatten_length, entryFlatten_length, ucmStr_length,
      bayerPattern2x2_length]) only
    [fsWrite_start, fsSeek, writeArraySHORT_past,
     writeArrayBYTE_tail, writeArrayRATIONAL_tail, writeArrayRATIONAL_tail_odd,
     writeAscii_tail, fsAlign2_even, fsWrite_tail,
     Nat.sub_self, List.replicate_zero, List.append_nil]
  simp only [List.length_append, List.length_replicate, List.length_cons,
    List.length_nil, u16le_length, u32le_length, shortFlatten_length,
    ratFlatten_length, entryFlatten_length, ucmStr_length,
    bayerPattern2x2_length, List.map_cons, List.map_nil, List.flatten_cons,
    List.flatten_nil, List.append_nil]
  norm_num [bayerPattern2x2_length]
  refine ⟨?_, by norm_num [dngOffsetsSpec]⟩
  rw [fsWrite_inside _ 8 _ (by
    simp [u16le_length, u32le_length, ifdEntryBytes_length, ucmStr_length,
      bayerPattern2x2_length, shortFlatten_length]
    omega)]
  simp only [List.take_append_eq_append_take, List.drop_append_eq_append_drop,
    List.length_append, List.length_replicate, List.length_cons,
    List.length_nil, u16le_length, u32le_length, ifdEntryBytes_length,
    ucmStr_length, bayerPattern2x2_length, List.length_map,
    List.take_replicate, List.drop_replicate, shortFlatten_length]
  norm_num [List.take_of_length_le, List.drop_eq_nil_of_le,
    u16le_length, u32le_length, ucmStr_length, bayerPattern2x2_length]
  norm_num [dngStream, dngHeaderBytes, dngDirBytes, dngDirEntries,
    dngBlocksBytes, ucmStr_length, List.map_cons, List.map_nil,
    List.flatten_cons, List.flatten_nil, List.append_assoc]

/-! ### Claims about the writer -/

theorem dngDirBytes_length (meta : DngMeta) :
    (dngDirBytes meta).length = 246 := by
  simp [dngDirBytes, dngDirEntries, u16le_length, u32le_length,
    entryFlatten_length, ifdEntryBytes_length]

theorem dngHeaderBytes_length : dngHeaderBytes.length = 8 := rfl

/-- Inversion of a successful write: the stream must have opened, the
buffer length matched, and the output is the fixed layout. -/
theorem dngWrite_some_inv {openOk : Bool} {meta : DngMeta}
    {pixels out : List Nat} {offs : DngOffsets}
    (h : dngWrite openOk meta pixels = some (out, offs)) :
    openOk = true ∧ pixels.length = meta.width * meta.height ∧
      out = dngStream meta pixels ∧ offs = dngOffsetsSpec := by
  by_cases h1 : pixels.length = meta.width * meta.height
  · cases openOk with
    | false =>
      unfold dngWrite at h
      rw [if_neg (by omega)] at h
      simp at h
    | true =>
      rw [dngWrite_shape meta pixels h1] at h
      simp only [Option.some.injEq, Prod.mk.injEq] at h
      exact ⟨rfl, h1, h.1.symm, h.2.symm⟩
  · unfold dngWrite at h
    rw [if_pos h1] at h
    cases h

/-- C6: for every metadata and pixel buffer whose length differs from
width*height, DngWriter::write reports the dimension-mismatch failure
and produces no stream; in the source this check precedes opening the
output file, so no byte is written and no file is created. -/
theorem dng_dimension_mismatch {meta : DngMeta} {pixels : List Nat}
    (openOk : Bool) (h : pixels.length ≠ meta.width * meta.height) :
    dngWrite openOk meta pixels = none := by
  unfold dngWrite
  rw [if_pos h]

theorem dng_dimension_mismatch_witness :
    dngWrite true ⟨2, 2, BayerPattern.RGGB, 16, 0, 1023, 1, 1, 21⟩
      [0, 0, 0] = none :=
  dng_dimension_mismatch true (by decide)

/-- C9: in every file produced by a successful DngWriter::write, every
out-of-line data block (the SHORT arrays, BYTE arrays, RATIONAL arrays
and the camera-model string) and the final pixel strip start at an even
byte offset from the start of the stream. -/
theorem dng_blocks_even {openOk : Bool} {meta : DngMeta}
    {pixels out : List Nat} {offs : DngOffsets}
    (h : dngWrite openOk meta pixels = some (out, offs)) :
    offs.bps % 2 = 0 ∧ offs.cfaDim % 2 = 0 ∧ offs.cfaPatt % 2 = 0 ∧
    offs.cfaPlaneColor % 2 = 0 ∧ offs.defaultScale % 2 = 0 ∧
    offs.dngVer % 2 = 0 ∧ offs.ucm % 2 = 0 ∧ offs.black % 2 = 0 ∧
    offs.white % 2 = 0 ∧ offs.cm % 2 = 0 ∧ offs.strip % 2 = 0 := by
  obtain ⟨-, -, -, hoffs⟩ := dngWrite_some_inv h
  subst hoffs
  decide

theorem dng_blocks_even_witness :
    dngOffsetsSpec.bps % 2 = 0 ∧ dngOffsetsSpec.cfaDim % 2 = 0 ∧
    dngOffsetsSpec.cfaPatt % 2 = 0 ∧ dngOffsetsSpec.cfaPlaneColor % 2 = 0 ∧
    dngOffsetsSpec.defaultScale % 2 = 0 ∧ dngOffsetsSpec.dngVer % 2 = 0 ∧
    dngOffsetsSpec.ucm % 2 = 0 ∧ dngOffsetsSpec.black % 2 = 0 ∧
    dngOffsetsSpec.white % 2 = 0 ∧ dngOffsetsSpec.cm % 2 = 0 ∧
    dngOffsetsSpec.strip % 2 = 0 :=
  @dng_blocks_even true ⟨1, 1, BayerPattern.RGGB, 16, 0, 1023, 1, 1, 21⟩
    [7] (dngStream ⟨1, 1, BayerPattern.RGGB, 16, 0, 1023, 1, 1, 21⟩ [7])
    dngOffsetsSpec (dngWrite_shape _ _ (by decide))

/-- C3 counterexample: at a concrete input, the header's directory
offset field is 8, i.e. the directory table sits right after the 8-byte
header, while the UniqueCameraModel entry (payload 42 > 4 bytes)
references its data block at offset 312, which lies after the 246-byte
directory table, not before it; the claimed order
header / data blocks / directory / strip is false of the stream. -/
theorem dng_order_counterexample :
    (dngWrite true ⟨2, 1, BayerPattern.RGGB, 16, 0, 1023, 1, 1, 21⟩
        [9, 9]).map (fun r => (r.1.take 8, r.2.ucm)) =
      some ([73, 73, 42, 0, 8, 0, 0, 0], 312) ∧
    42 > 4 ∧ ¬ (312 < 8 + 246) :=
  ⟨by decide, by decide, by decide⟩

/-- C3 (amended): the stream produced by a successful write is, in
order: the 8-byte header, the directory table at offset 8 (entry count,
entries, 4-byte zero terminator, 246 bytes), the placeholder slack,
every out-of-line data block, then the pixel strip; every directory
entry whose payload exceeds 4 bytes (DefaultScale 16 bytes, the
camera-model string 42 bytes, ColorMatrix1 72 bytes) references a data
block located after the directory table. -/
theorem dng_stream_order {openOk : Bool} {meta : DngMeta}
    {pixels out : List Nat} {offs : DngOffsets}
    (h : dngWrite openOk meta pixels = some (out, offs)) :
    out = dngHeaderBytes ++ dngDirBytes meta ++ List.replicate 24 0
        ++ dngBlocksBytes meta ++ (pixels.map u16le).flatten ∧
    dngHeaderBytes.length = 8 ∧ (dngDirBytes meta).length = 246 ∧
    8 + 246 ≤ offs.defaultScale ∧ 8 + 246 ≤ offs.ucm ∧
    8 + 246 ≤ offs.cm ∧ offs.strip = 430 := by
  obtain ⟨-, -, hout, hoffs⟩ := dngWrite_some_inv h
  subst hout hoffs
  exact ⟨rfl, rfl, dngDirBytes_length meta, by decide, by decide,
    by decide, rfl⟩

theorem dng_stream_order_witness :
    dngStream ⟨1, 2, BayerPattern.BGGR, 16, 64, 1023, 1, 1, 21⟩ [3, 4] =
      dngHeaderBytes
        ++ dngDirBytes ⟨1, 2, BayerPattern.BGGR, 16, 64, 1023, 1, 1, 21⟩
        ++ List.replicate 24 0
        ++ dngBlocksBytes ⟨1, 2, BayerPattern.BGGR, 16, 64, 1023, 1, 1, 21⟩
        ++ ([3, 4].map u16le).flatten ∧
    8 + 246 ≤ dngOffsetsSpec.ucm :=
  ⟨(@dng_stream_order true _ _ _ _
      (dngWrite_shape _ _ (by decide))).1,
    (@dng_stream_order true _ _ _ _
      (dngWrite_shape ⟨1, 2, BayerPattern.BGGR, 16, 64, 1023, 1, 1, 21⟩
        [3, 4] (by decide))).2.2.2.2.1⟩

/-- C10: two DngMeta values that differ only in analogGain and/or
exposureSeconds give byte-identical output for the same pixel buffer:
the two informational fields are never serialized. -/
theorem dng_gain_exposure_not_serialized (openOk : Bool)
    (m1 m2 : DngMeta) (pixels : List Nat)
    (hw : m1.width = m2.width) (hh : m1.height = m2.height)
    (hb : m1.bayer = m2.bayer) (hbps : m1.bitsPerSample = m2.bitsPerSample)
    (hbl : m1.blackLevel = m2.blackLevel)
    (hwl : m1.whiteLevel = m2.whiteLevel)
    (hil : m1.cfaIlluminant = m2.cfaIlluminant) :
    dngWrite openOk m1 pixels = dngWrite openOk m2 pixels := by
  obtain ⟨w1, h1, b1, bps1, bl1, wl1, g1, e1, il1⟩ := m1
  obtain ⟨w2, h2, b2, bps2, bl2, wl2, g2, e2, il2⟩ := m2
  simp only at hw hh hb hbps hbl hwl hil
  subst hw hh hb hbps hbl hwl hil
  rfl

theorem dng_gain_exposure_not_serialized_witness :
    dngWrite true ⟨2, 2, BayerPattern.GRBG, 16, 64, 1023, 1, 1/125, 21⟩
        [1, 2, 3, 4] =
      dngWrite true ⟨2, 2, BayerPattern.GRBG, 16, 64, 1023, 4, 1/30, 21⟩
        [1, 2, 3, 4] :=
  dng_gain_exposure_not_serialized true _ _ _ rfl rfl rfl rfl rfl rfl rfl


/-- C5: the Bayer resolver maps the four variants to exactly
RGGB→[0,1,1,2], BGGR→[2,1,1,0], GRBG→[1,0,2,1], GBRG→[1,2,0,1]; every
string other than the four canonical uppercase tokens resolves to the
RGGB pattern; and in every successfully written stream the emitted
CFAPlaneColor data block is the fixed [0,1,2], independent of the
variant. -/
theorem bayer_resolver_table (s : String)
    (hs : s ≠ "RGGB" ∧ s ≠ "BGGR" ∧ s ≠ "GRBG" ∧ s ≠ "GBRG")
    {openOk : Bool} {meta : DngMeta} {pixels out : List Nat}
    {offs : DngOffsets}
    (h : dngWrite openOk meta pixels = some (out, offs)) :
    bayerPattern2x2 BayerPattern.RGGB = [0, 1, 1, 2] ∧
    bayerPattern2x2 BayerPattern.BGGR = [2, 1, 1, 0] ∧
    bayerPattern2x2 BayerPattern.GRBG = [1, 0, 2, 1] ∧
    bayerPattern2x2 BayerPattern.GBRG = [1, 2, 0, 1] ∧
    toBayer s = BayerPattern.RGGB ∧
    (out.drop offs.cfaPlaneColor).take 3 = [0, 1, 2] := by
  obtain ⟨-, -, hout, hoffs⟩ := dngWrite_some_inv h
  subst hout hoffs
  refine ⟨rfl, rfl, rfl, rfl, ?_, ?_⟩
  · unfold toBayer
    rw [if_neg hs.1, if_neg hs.2.1, if_neg hs.2.2.1, if_neg hs.2.2.2]
  · show ((dngStream meta pixels).drop 288).take 3 = [0, 1, 2]
    simp only [dngStream, dngHeaderBytes, dngDirBytes, dngDirEntries,
      dngBlocksBytes, List.append_assoc, List.cons_append, List.nil_append,
      List.drop_append_eq_append_drop, List.length_append, u16le_length,
      u32le_length, ifdEntryBytes_length, ucmStr_length,
      List.length_replicate, List.length_cons, List.length_nil,
      List.map_cons, List.map_nil, List.flatten_cons, List.flatten_nil,
      List.drop_replicate, List.length_map, bayerPattern2x2_length,
      List.append_nil]
    norm_num [List.drop_eq_nil_of_le, u16le_length, u32le_length,
      ucmStr_length, bayerPattern2x2_length, List.length_map,
      ifdEntryBytes_length]

theorem bayer_resolver_table_witness :
    bayerPattern2x2 BayerPattern.RGGB = [0, 1, 1, 2] ∧
    bayerPattern2x2 BayerPattern.BGGR = [2, 1, 1, 0] ∧
    bayerPattern2x2 BayerPattern.GRBG = [1, 0, 2, 1] ∧
    bayerPattern2x2 BayerPattern.GBRG = [1, 2, 0, 1] ∧
    toBayer "rggb" = BayerPattern.RGGB ∧
    ((dngStream ⟨2, 1, BayerPattern.GBRG, 16, 0, 1023, 1, 1, 21⟩
        [0, 0]).drop dngOffsetsSpec.cfaPlaneColor).take 3 = [0, 1, 2] :=
  bayer_resolver_table "rggb"
    ⟨by decide, by decide, by decide, by decide⟩
    (dngWrite_shape ⟨2, 1, BayerPattern.GBRG, 16, 0, 1023, 1, 1, 21⟩
      [0, 0] (by decide))

end GsCam
